import Mathlib

set_option maxHeartbeats 1000000

/-
  Shallow embedding of src/audio/transport.c (BlueZ media transport):
  the transport / owner / acquire-request state machine, its lock
  arbitration, the two profile strategies (a2dp, headset), and the
  observable collaborator calls (D-Bus replies, property-changed
  signals, cancel/unlock calls) recorded in an event log.
-/

namespace BluezTransport

abbrev Str := List Char

/-- Boolean prefix test on character lists, the primitive under `strstr`. -/
def isPrefixB : Str → Str → Bool
  | [], _ => true
  | _ :: _, [] => false
  | c :: cs, d :: ds => c == d && isPrefixB cs ds

/-- Models `g_strstr_len(haystack, -1, needle) != NULL`: needle occurs as a
substring of haystack.  Note `g_strstr_len(h, -1, "")` returns `h` (non-NULL),
so the empty needle always matches. -/
def g_strstr (haystack needle : Str) : Bool :=
  match haystack with
  | [] => isPrefixB needle []
  | c :: rest => isPrefixB needle (c :: rest) || g_strstr rest needle

/-- Models `g_strdelimit(s, delimiters, ' ')`: every character of `s` that
occurs in `delimiters` is replaced by a space (the characters are not
removed). -/
def g_strdelimit (s delimiters : Str) : Str :=
  s.map (fun c => if c ∈ delimiters then ' ' else c)

/-- Models `struct acquire_request`: the pending D-Bus Acquire message and the
operation ticket returned by resume (`id = 0` means nothing to cancel). -/
structure AcquireRequest where
  msg : Nat
  id : Nat
  deriving DecidableEq

/-- Models `struct media_owner`. -/
structure MediaOwner where
  name : Str
  accesstype : Str
  request : Option AcquireRequest
  watch : Bool
  deriving DecidableEq

/-- The two profile strategies selected in `media_transport_create`. -/
inductive Profile where
  | a2dp
  | headset
  deriving DecidableEq

/-- Observable calls to external collaborators. -/
inductive Event where
  | errorReply (msg : Nat)
  | fdReply (msg : Nat) (fd : Int)
  | cancelCall (id : Nat)
  | propChanged (name : String)
  | sepUnlock
  | headsetUnlock
  deriving DecidableEq

/-- Models `struct media_transport` plus an event log of collaborator calls
and the glib idle queue holding deferred `remove_owner` tasks. -/
structure MediaTransport where
  profile : Profile
  owners : List MediaOwner
  read_lock : Bool
  write_lock : Bool
  in_use : Bool
  session : Bool
  fd : Int
  imtu : Nat
  omtu : Nat
  log : List Event
  idle : List Str
  deriving DecidableEq

/-- Result of a D-Bus method handler: an error reply, a normal reply, or no
immediate reply (`NULL` return on the async path). -/
inductive DBusResult where
  | errorReply
  | okReply
  | noReply
  deriving DecidableEq

/-- Models `media_transport_find_owner`: first owner whose name matches. -/
def media_transport_find_owner (t : MediaTransport) (name : Str) :
    Option MediaOwner :=
  t.owners.find? (fun o => o.name == name)

/-- Replace the first owner with the given name by its image under `f`
(the C code mutates the found owner in place). -/
def updateOwner : List MediaOwner → Str → (MediaOwner → MediaOwner) →
    List MediaOwner
  | [], _, _ => []
  | o :: rest, n, f =>
      if o.name == n then f o :: rest else o :: updateOwner rest n f

/-- Models `g_slist_remove`: drop the first owner with the given name. -/
def removeOwner : List MediaOwner → Str → List MediaOwner
  | [], _ => []
  | o :: rest, n => if o.name == n then rest else o :: removeOwner rest n

/-- Models `media_transport_release`: clear the read lock if the accesstype
contains `r`, the write lock if it contains `w`. -/
def media_transport_release (t : MediaTransport) (accesstype : Str) :
    MediaTransport :=
  let t1 := if g_strstr accesstype ['r'] then { t with read_lock := false }
            else t
  if g_strstr accesstype ['w'] then { t1 with write_lock := false } else t1

/-- Models `acquire_request_free`: cancel the ticket if still nonzero (the
owner's `request` pointer is cleared by the calling context). -/
def acquire_request_free (t : MediaTransport) (req : AcquireRequest) :
    MediaTransport :=
  if req.id ≠ 0 then { t with log := t.log ++ [Event.cancelCall req.id] }
  else t

/-- Models `suspend_a2dp`: `a2dp_sep_unlock` is called unconditionally and
`in_use` is cleared. -/
def suspend_a2dp (t : MediaTransport) : MediaTransport :=
  { t with in_use := false, log := t.log ++ [Event.sepUnlock] }

/-- Models `suspend_headset`. -/
def suspend_headset (t : MediaTransport) : MediaTransport :=
  { t with in_use := false, log := t.log ++ [Event.headsetUnlock] }

/-- Dispatch of `transport->suspend`. -/
def transport_suspend (t : MediaTransport) : MediaTransport :=
  match t.profile with
  | .a2dp => suspend_a2dp t
  | .headset => suspend_headset t

/-- Models `media_owner_remove`: release the owner's lock bits, send the EIO
error reply if a request is still attached (then free it, cancelling a
nonzero ticket), drop the owner, and suspend when no owner remains. -/
def media_owner_remove (t : MediaTransport) (o : MediaOwner) :
    MediaTransport :=
  let t1 := media_transport_release t o.accesstype
  let t2 := match o.request with
    | some req =>
        acquire_request_free
          { t1 with log := t1.log ++ [Event.errorReply req.msg] } req
    | none => t1
  let t3 := { t2 with owners := removeOwner t2.owners o.name }
  if t3.owners = [] then transport_suspend t3 else t3

/-- Outcomes of the external calls made by the resume strategies. -/
structure Oracle where
  avdtpGetOk : Bool
  sepLockOk : Bool
  a2dpResumeId : Nat
  headsetLockOk : Bool
  headsetStreamId : Nat
  deriving DecidableEq

/-- The `in_use` / `a2dp_resume` tail of `resume_a2dp`. -/
def resume_a2dp_stream (t : MediaTransport) (ora : Oracle) :
    MediaTransport × Nat :=
  if t.in_use then (t, ora.a2dpResumeId)
  else
    let t1 := { t with in_use := ora.sepLockOk }
    if ora.sepLockOk then (t1, ora.a2dpResumeId) else (t1, 0)

/-- Models `resume_a2dp`: lazily acquire the signalling session, take the SEP
lock if not yet `in_use`, then request the stream. Returns the ticket
(`0` = synchronous failure). -/
def resume_a2dp (t : MediaTransport) (ora : Oracle) : MediaTransport × Nat :=
  if t.session then resume_a2dp_stream t ora
  else if ora.avdtpGetOk then resume_a2dp_stream { t with session := true } ora
  else (t, 0)

/-- Models `resume_headset`. -/
def resume_headset (t : MediaTransport) (ora : Oracle) :
    MediaTransport × Nat :=
  if t.in_use then (t, ora.headsetStreamId)
  else
    let t1 := { t with in_use := ora.headsetLockOk }
    if ora.headsetLockOk then (t1, ora.headsetStreamId) else (t1, 0)

/-- Dispatch of `transport->resume`. -/
def transport_resume (t : MediaTransport) (ora : Oracle) :
    MediaTransport × Nat :=
  match t.profile with
  | .a2dp => resume_a2dp t ora
  | .headset => resume_headset t ora

/-- Models `media_transport_acquire`: validate against the current lock bits,
reject an accesstype containing neither `r` nor `w`, otherwise set the
requested bits. `none` means the validation failed with no state change. -/
def media_transport_acquire (t : MediaTransport) (accesstype : Str) :
    Option MediaTransport :=
  let rl := g_strstr accesstype ['r']
  if rl && t.read_lock then none
  else
    let wl := g_strstr accesstype ['w']
    if wl && t.write_lock then none
    else if !rl && !wl then none
    else some { t with read_lock := t.read_lock || rl,
                       write_lock := t.write_lock || wl }

/-- Models `media_owner_create`: `g_slist_append` of a fresh owner with a
disconnect watch. -/
def media_owner_create (t : MediaTransport) (sender accesstype : Str) :
    MediaTransport :=
  { t with owners := t.owners ++
      [{ name := sender, accesstype := accesstype, request := none,
         watch := true }] }

/-- The tail of the `Acquire` handler after validation: invoke the profile
resume, attach the request (with the returned ticket) to the fresh owner,
and tear the owner down immediately when the resume failed synchronously
(ticket 0). -/
def acquire_resume (t2 : MediaTransport) (sender : Str) (msg : Nat)
    (ora : Oracle) : MediaTransport × DBusResult :=
  let r := transport_resume t2 ora
  let t5 := { r.1 with owners := (updateOwner r.1.owners sender
                (fun o => { o with request := some ⟨msg, r.2⟩ })) }
  if r.2 = 0 then
    match media_transport_find_owner t5 sender with
    | some o => (media_owner_remove t5 o, .noReply)
    | none => (t5, .noReply)
  else (t5, .noReply)

/-- Models the `Acquire` D-Bus method handler. -/
def acquire (t : MediaTransport) (sender : Str) (msg : Nat)
    (accesstype : Str) (ora : Oracle) : MediaTransport × DBusResult :=
  match media_transport_find_owner t sender with
  | some _ => (t, .errorReply)
  | none =>
    match media_transport_acquire t accesstype with
    | none => (t, .errorReply)
    | some t1 =>
      acquire_resume (media_owner_create t1 sender accesstype) sender msg ora

/-- Models the `Release` D-Bus method handler. -/
def release (t : MediaTransport) (sender : Str) (accesstype : Str) :
    MediaTransport × DBusResult :=
  match media_transport_find_owner t sender with
  | none => (t, .errorReply)
  | some o =>
    if o.accesstype = accesstype then (media_owner_remove t o, .okReply)
    else if g_strstr o.accesstype accesstype then
      let t1 := media_transport_release t accesstype
      let t2 := { t1 with owners := (updateOwner t1.owners sender
        (fun ow => { ow with
            accesstype := g_strdelimit ow.accesstype accesstype })) }
      (t2, .okReply)
    else (t, .errorReply)

/-- Models `media_owner_exit`, the disconnect watch: the request is freed
first (no reply is sent there), then the shared teardown runs. -/
def media_owner_exit (t : MediaTransport) (sender : Str) : MediaTransport :=
  match media_transport_find_owner t sender with
  | none => t
  | some o =>
    match o.request with
    | some req =>
        let t1 := acquire_request_free t req
        let o1 : MediaOwner := { o with watch := false, request := none }
        let t2 := { t1 with owners := (updateOwner t1.owners sender
                      (fun _ => o1)) }
        media_owner_remove t2 o1
    | none =>
        let o1 : MediaOwner := { o with watch := false }
        let t2 := { t with owners := (updateOwner t.owners sender
                      (fun _ => o1)) }
        media_owner_remove t2 o1

/-- Models `media_transport_set_fd`: a matching fd is a no-op; otherwise all
three fields are stored and IMTU and OMTU notifications are emitted
unconditionally. -/
def media_transport_set_fd (t : MediaTransport) (fd : Int)
    (imtu omtu : Nat) : MediaTransport :=
  if t.fd = fd then t
  else
    { t with fd := fd, imtu := imtu, omtu := omtu,
             log := t.log ++ [Event.propChanged "IMTU", Event.propChanged "OMTU"] }

/-- Outcome of the external calls observed by `a2dp_resume_complete`. -/
structure A2dpOutcome where
  err : Bool
  streamOk : Bool
  transportOk : Bool
  fd : Int
  imtu : Nat
  omtu : Nat
  sendOk : Bool
  deriving DecidableEq

/-- Models `a2dp_resume_complete`: clear the ticket, and on any failure
(error, missing stream, missing transport info, undeliverable reply) defer
`remove_owner` to the idle queue instead of running it inline. -/
def a2dp_resume_complete (t : MediaTransport) (sender : Str)
    (oc : A2dpOutcome) : MediaTransport :=
  match media_transport_find_owner t sender with
  | none => t
  | some o =>
    match o.request with
    | none => t
    | some req =>
      let t1 := { t with owners := (updateOwner t.owners sender
        (fun ow => { ow with request := some { req with id := 0 } })) }
      if oc.err then { t1 with idle := t1.idle ++ [sender] }
      else if !oc.streamOk then { t1 with idle := t1.idle ++ [sender] }
      else if !oc.transportOk then { t1 with idle := t1.idle ++ [sender] }
      else
        let t2 := media_transport_set_fd t1 oc.fd oc.imtu oc.omtu
        if oc.sendOk then { t2 with log := t2.log ++ [Event.fdReply req.msg oc.fd] }
        else { t2 with idle := t2.idle ++ [sender] }

/-- Outcome of the external calls observed by `headset_resume_complete`. -/
structure HeadsetOutcome where
  devOk : Bool
  fd : Int
  sendOk : Bool
  deriving DecidableEq

/-- Models `headset_resume_complete`: clear the ticket, and on any failure
tear the owner down synchronously via `media_owner_remove`. -/
def headset_resume_complete (t : MediaTransport) (sender : Str)
    (oc : HeadsetOutcome) : MediaTransport :=
  match media_transport_find_owner t sender with
  | none => t
  | some o =>
    match o.request with
    | none => t
    | some req =>
      let o1 : MediaOwner := { o with request := some { req with id := 0 } }
      let t1 := { t with owners := updateOwner t.owners sender (fun _ => o1) }
      if !oc.devOk then media_owner_remove t1 o1
      else if oc.fd < 0 then media_owner_remove t1 o1
      else
        let t2 := media_transport_set_fd t1 oc.fd 48 48
        if oc.sendOk then { t2 with log := t2.log ++ [Event.fdReply req.msg oc.fd] }
        else media_owner_remove t2 o1

/-- Models `remove_owner` running from the glib idle queue: pop one deferred
task and run the shared teardown for that owner if it still exists. -/
def run_idle (t : MediaTransport) : MediaTransport :=
  match t.idle with
  | [] => t
  | sender :: rest =>
    let t1 := { t with idle := rest }
    match media_transport_find_owner t1 sender with
    | some o => media_owner_remove t1 o
    | none => t1

/-- One operation of the state machine, as driven by D-Bus method calls,
disconnect watches, asynchronous completion callbacks, and the idle loop. -/
inductive Op where
  | opAcquire (sender : Str) (msg : Nat) (accesstype : Str) (ora : Oracle)
  | opRelease (sender : Str) (accesstype : Str)
  | opDisconnect (sender : Str)
  | opA2dpComplete (sender : Str) (oc : A2dpOutcome)
  | opHeadsetComplete (sender : Str) (oc : HeadsetOutcome)
  | opRunIdle
  deriving DecidableEq

/-- Apply one operation. -/
def step (t : MediaTransport) : Op → MediaTransport
  | .opAcquire s m a ora => (acquire t s m a ora).1
  | .opRelease s a => (release t s a).1
  | .opDisconnect s => media_owner_exit t s
  | .opA2dpComplete s oc => a2dp_resume_complete t s oc
  | .opHeadsetComplete s oc => headset_resume_complete t s oc
  | .opRunIdle => run_idle t

/-- Apply a sequence of operations. -/
def run (t : MediaTransport) (ops : List Op) : MediaTransport :=
  ops.foldl step t

/-- A freshly created transport (`media_transport_create`): no owners, both
locks clear, not in use, no session, `fd = -1`. -/
def initTransport (p : Profile) : MediaTransport :=
  { profile := p, owners := [], read_lock := false, write_lock := false,
    in_use := false, session := false, fd := -1, imtu := 0, omtu := 0,
    log := [], idle := [] }

/-! Concrete inputs used by individual claims. -/

/-- Oracle under which every external call succeeds (ticket 7 for a2dp,
ticket 5 for headset). -/
def okOracle : Oracle :=
  { avdtpGetOk := true, sepLockOk := true, a2dpResumeId := 7,
    headsetLockOk := true, headsetStreamId := 5 }

/-- Successful a2dp completion outcome delivering fd 3, MTUs 100/200. -/
def okA2dpOutcome : A2dpOutcome :=
  { err := false, streamOk := true, transportOk := true, fd := 3,
    imtu := 100, omtu := 200, sendOk := true }

/-- State after: client A acquires "rw" on an a2dp transport, the resume
completes successfully (fd delivered), and A releases "r". -/
def c1_mid : MediaTransport :=
  run (initTransport .a2dp)
    [ .opAcquire ['A'] 1 ['r', 'w'] okOracle,
      .opA2dpComplete ['A'] okA2dpOutcome,
      .opRelease ['A'] ['r'] ]

/-- State after client A then releases "w". -/
def c1_final : MediaTransport := step c1_mid (.opRelease ['A'] ['w'])

/-- Headset transport with owner A holding "rw" and a pending ticket. -/
def c3_state : MediaTransport :=
  run (initTransport .headset) [ .opAcquire ['A'] 1 ['r', 'w'] okOracle ]

/-- An a2dp transport whose channel descriptor is fd 1, IMTU 5, OMTU 7. -/
def c4_state : MediaTransport :=
  { initTransport .a2dp with fd := 1, imtu := 5, omtu := 7 }

/-- Headset transport with owner A holding "r" and a pending ticket 5 for
message 1. -/
def c7_state : MediaTransport :=
  run (initTransport .headset) [ .opAcquire ['A'] 1 ['r'] okOracle ]


/-- An owner holds Read access iff its accesstype contains `r` (this is the
definition the lock-release code uses). -/
def holdsRead (o : MediaOwner) : Bool := g_strstr o.accesstype ['r']

/-- An owner holds Write access iff its accesstype contains `w`. -/
def holdsWrite (o : MediaOwner) : Bool := g_strstr o.accesstype ['w']

/-- Number of owners holding Read access. -/
def rCount (l : List MediaOwner) : Nat := (l.filter holdsRead).length

/-- Number of owners holding Write access. -/
def wCount (l : List MediaOwner) : Nat := (l.filter holdsWrite).length

/-- The inductive lock invariant: each lock bit is set iff exactly one owner
holds the matching access, and clear iff none does. -/
def LockInv (t : MediaTransport) : Prop :=
  rCount t.owners = (if t.read_lock then 1 else 0) ∧
  wCount t.owners = (if t.write_lock then 1 else 0)

/-- Number of EIO error replies sent on a given message. -/
def errCount (log : List Event) (msg : Nat) : Nat :=
  log.count (.errorReply msg)

/-- Number of cancel calls issued for a given ticket. -/
def cancelCount (log : List Event) (id : Nat) : Nat :=
  log.count (.cancelCall id)


/-- Oracle whose a2dp signalling-session acquisition fails, forcing a
synchronous resume failure before the SEP lock is ever taken. -/
def failOracle : Oracle :=
  { avdtpGetOk := false, sepLockOk := true, a2dpResumeId := 7,
    headsetLockOk := true, headsetStreamId := 5 }

/-! String lemmas about the glib helpers. -/

theorem isPrefixB_iff (n h : Str) : isPrefixB n h = true ↔ ∃ r, h = n ++ r := by
  induction n generalizing h with
  | nil => simp [isPrefixB]
  | cons c cs ih =>
    cases h with
    | nil => simp [isPrefixB]
    | cons d ds =>
      simp only [isPrefixB, Bool.and_eq_true, beq_iff_eq, ih]
      constructor
      · rintro ⟨rfl, r, rfl⟩
        exact ⟨r, rfl⟩
      · rintro ⟨r, hr⟩
        cases hr
        exact ⟨rfl, r, rfl⟩

theorem g_strstr_iff (h n : Str) :
    g_strstr h n = true ↔ ∃ l r, h = l ++ n ++ r := by
  induction h with
  | nil =>
    simp only [g_strstr, isPrefixB_iff]
    constructor
    · rintro ⟨r, hr⟩
      exact ⟨[], r, hr⟩
    · rintro ⟨l, r, hr⟩
      refine ⟨l ++ r, ?_⟩
      rcases List.append_eq_nil.mp hr.symm with ⟨h1, h2⟩
      rcases List.append_eq_nil.mp h1 with ⟨h3, h4⟩
      simp [h2, h3, h4]
  | cons c t ih =>
    simp only [g_strstr, Bool.or_eq_true, isPrefixB_iff, ih]
    constructor
    · rintro (⟨r, hr⟩ | ⟨l, r, hr⟩)
      · exact ⟨[], r, by simp [hr]⟩
      · exact ⟨c :: l, r, by simp [hr]⟩
    · rintro ⟨l, r, hr⟩
      cases l with
      | nil => exact Or.inl ⟨r, by simpa using hr⟩
      | cons x l2 =>
        right
        refine ⟨l2, r, ?_⟩
        have := hr
        simp only [List.cons_append, List.cons.injEq] at this
        exact this.2

theorem g_strstr_single (s : Str) (c : Char) :
    g_strstr s [c] = true ↔ c ∈ s := by
  rw [g_strstr_iff]
  constructor
  · rintro ⟨l, r, rfl⟩
    simp
  · intro hc
    rcases List.append_of_mem hc with ⟨l, r, rfl⟩
    exact ⟨l, r, by simp⟩

theorem g_strstr_mem {s a : Str} {c : Char} (hs : g_strstr s a = true)
    (hc : c ∈ a) : c ∈ s := by
  rcases (g_strstr_iff s a).mp hs with ⟨l, r, rfl⟩
  simp [hc]

theorem g_strstr_single_false (s : Str) (c : Char) :
    g_strstr s [c] = false ↔ c ∉ s := by
  rw [← g_strstr_single s c]
  cases g_strstr s [c] <;> simp

theorem mem_g_strdelimit {s a : Str} {c : Char} (hc : c ≠ ' ') :
    c ∈ g_strdelimit s a ↔ (c ∈ s ∧ c ∉ a) := by
  simp only [g_strdelimit, List.mem_map]
  constructor
  · rintro ⟨x, hx, hfx⟩
    by_cases hxa : x ∈ a
    · simp [hxa] at hfx
      exact absurd hfx.symm hc
    · simp [hxa] at hfx
      subst hfx
      exact ⟨hx, hxa⟩
  · rintro ⟨hcs, hca⟩
    exact ⟨c, hcs, by simp [hca]⟩

/-- Claim C1 (code bug): after client A acquires "rw" and the resume
completes, `Release("r")` does leave Owner A present holding only write
access (accesstype becomes " w": `g_strdelimit` replaces the released
character by a space), with read_lock false and write_lock true; but the
subsequent `Release("w")` does NOT remove Owner A and does NOT invoke
suspend: `strcmp(" w", "w") != 0` sends it into the partial branch, which
merely clears the write lock and blanks the accesstype, leaving a zombie
owner and never calling the profile unlock. -/
theorem c1_second_release_leaves_zombie_owner :
    (c1_mid.read_lock = false ∧ c1_mid.write_lock = true ∧
      c1_mid.owners.map MediaOwner.name = [['A']] ∧
      c1_mid.owners.map MediaOwner.accesstype = [[' ', 'w']]) ∧
    ((release c1_mid ['A'] ['w']).2 = DBusResult.okReply ∧
      c1_final.read_lock = false ∧ c1_final.write_lock = false ∧
      c1_final.owners.map MediaOwner.name = [['A']] ∧
      c1_final.owners.map MediaOwner.accesstype = [[' ', ' ']] ∧
      c1_final.log.count Event.sepUnlock = 0 ∧
      c1_final.log.count Event.headsetUnlock = 0) := by
  decide

/-- Claim C3 counterexample: owner A holds "rw"; `Release("")` — an
access type that is neither equal to the held access nor a strict
non-empty subset of it — succeeds with an empty reply instead of failing
with PermissionDenied, because the empty string is a substring of every
held access. The state is left unchanged. -/
theorem c3_empty_release_accepted :
    (media_transport_find_owner c3_state ['A']).map MediaOwner.accesstype
        = some ['r', 'w'] ∧
    release c3_state ['A'] [] = (c3_state, DBusResult.okReply) := by
  decide

/-- Claim C4 counterexample: the stored descriptor is (fd 1, IMTU 5,
OMTU 7); publishing (fd 2, IMTU 5, OMTU 9) changes only the OMTU field,
yet an IMTU change notification is emitted as well — the code emits both
notifications unconditionally whenever the fd differs. -/
theorem c4_unchanged_imtu_still_notified :
    c4_state.imtu = 5 ∧
    (media_transport_set_fd c4_state 2 5 9).imtu = 5 ∧
    (media_transport_set_fd c4_state 2 5 9).log.count
        (Event.propChanged "IMTU") = 1 := by
  decide

/-- Claim C7 counterexample: owner A has a pending request (message 1,
ticket 5); when A disconnects, the request is destroyed before its resume
completes, yet zero error replies are delivered — `media_owner_exit` frees
the request (cancelling ticket 5 exactly once) before `media_owner_remove`
runs, so the shared teardown finds no request to answer. -/
theorem c7_disconnect_delivers_no_error_reply :
    (media_transport_find_owner c7_state ['A']).bind MediaOwner.request
        = some ⟨1, 5⟩ ∧
    errCount (media_owner_exit c7_state ['A']).log 1 = 0 ∧
    cancelCount (media_owner_exit c7_state ['A']).log 5 = 1 := by
  decide

/-- Claim C8: a client that already owns an Owner on the transport is
rejected with PermissionDenied on any further Acquire, whatever access
type it asks for, and the transport state is unchanged. -/
theorem c8_second_acquire_denied (t : MediaTransport) (sender : Str)
    (msg : Nat) (accesstype : Str) (ora : Oracle) (o : MediaOwner)
    (h : media_transport_find_owner t sender = some o) :
    acquire t sender msg accesstype ora = (t, DBusResult.errorReply) := by
  unfold acquire
  rw [h]

/-- Witness for C8 at a concrete input: owner A exists, so a second
Acquire (here asking for "w") is rejected and changes nothing. -/
theorem c8_second_acquire_denied_witness :
    acquire c3_state ['A'] 2 ['w'] okOracle
      = (c3_state, DBusResult.errorReply) :=
  c8_second_acquire_denied c3_state ['A'] 2 ['w'] okOracle
    { name := ['A'], accesstype := ['r', 'w'],
      request := some ⟨1, 5⟩, watch := true }
    (by decide)

/-- Claim C9: an Acquire whose access-type string contains neither 'r'
nor 'w' is rejected with PermissionDenied and has no side effects: the
state (locks, owners, session, in_use, log) is returned unchanged and
resume is never reached. -/
theorem c9_invalid_accesstype_rejected (t : MediaTransport) (sender : Str)
    (msg : Nat) (accesstype : Str) (ora : Oracle)
    (hr : 'r' ∉ accesstype) (hw : 'w' ∉ accesstype) :
    acquire t sender msg accesstype ora = (t, DBusResult.errorReply) := by
  have hr' : g_strstr accesstype ['r'] = false :=
    (g_strstr_single_false accesstype 'r').mpr hr
  have hw' : g_strstr accesstype ['w'] = false :=
    (g_strstr_single_false accesstype 'w').mpr hw
  have hacq : media_transport_acquire t accesstype = none := by
    unfold media_transport_acquire
    simp [hr', hw']
  unfold acquire
  cases hf : media_transport_find_owner t sender with
  | some o => rfl
  | none => rw [hacq]

/-- Witness for C9 at a concrete input: Acquire("x") on a fresh transport
is rejected with no side effects. -/
theorem c9_invalid_accesstype_rejected_witness :
    acquire (initTransport .headset) ['B'] 9 ['x'] okOracle
      = (initTransport .headset, DBusResult.errorReply) :=
  c9_invalid_accesstype_rejected (initTransport .headset) ['B'] 9 ['x']
    okOracle (by decide) (by decide)

/-! List-level lemmas about owner lookup, in-place update and removal. -/

theorem find?_cons_true {x : MediaOwner} {rest : List MediaOwner} {n : Str}
    (hx : (x.name == n) = true) :
    (x :: rest).find? (fun y => y.name == n) = some x := by
  simp [List.find?_cons, hx]

theorem find?_cons_false {x : MediaOwner} {rest : List MediaOwner} {n : Str}
    (hx : (x.name == n) = false) :
    (x :: rest).find? (fun y => y.name == n)
      = rest.find? (fun y => y.name == n) := by
  simp [List.find?_cons, hx]

theorem removeOwner_filter_len {l : List MediaOwner} {n : Str}
    {o : MediaOwner} (q : MediaOwner → Bool)
    (h : l.find? (fun x => x.name == n) = some o) :
    ((removeOwner l n).filter q).length + (if q o then 1 else 0)
      = (l.filter q).length := by
  induction l with
  | nil => simp at h
  | cons x rest ih =>
    cases hx : (x.name == n) with
    | true =>
      rw [find?_cons_true hx] at h
      injection h with h
      subst h
      simp only [removeOwner, hx, if_true, List.filter_cons]
      by_cases hq : q x = true <;> simp [hq]
    | false =>
      rw [find?_cons_false hx] at h
      have hrec := ih h
      simp only [removeOwner, hx, Bool.false_eq_true, if_false,
        List.filter_cons]
      by_cases hq : q x = true <;> simp [hq] <;> omega

theorem removeOwner_len {l : List MediaOwner} {n : Str} {o : MediaOwner}
    (h : l.find? (fun x => x.name == n) = some o) :
    (removeOwner l n).length + 1 = l.length := by
  have := removeOwner_filter_len (fun _ => true) h
  simpa using this

theorem updateOwner_filter_len {l : List MediaOwner} {n : Str}
    {o : MediaOwner} (q : MediaOwner → Bool) (f : MediaOwner → MediaOwner)
    (h : l.find? (fun x => x.name == n) = some o) :
    ((updateOwner l n f).filter q).length + (if q o then 1 else 0)
      = (l.filter q).length + (if q (f o) then 1 else 0) := by
  induction l with
  | nil => simp at h
  | cons x rest ih =>
    cases hx : (x.name == n) with
    | true =>
      rw [find?_cons_true hx] at h
      injection h with h
      subst h
      simp only [updateOwner, hx, if_true, List.filter_cons]
      by_cases hq : q x = true <;> by_cases hq2 : q (f x) = true <;>
        simp [hq, hq2] <;> omega
    | false =>
      rw [find?_cons_false hx] at h
      have hrec := ih h
      simp only [updateOwner, hx, Bool.false_eq_true, if_false,
        List.filter_cons]
      by_cases hq : q x = true <;> simp [hq] <;> omega

theorem updateOwner_filter_len_inv (q : MediaOwner → Bool)
    (f : MediaOwner → MediaOwner) (hq : ∀ x, q (f x) = q x)
    (l : List MediaOwner) (n : Str) :
    ((updateOwner l n f).filter q).length = (l.filter q).length := by
  induction l with
  | nil => rfl
  | cons x rest ih =>
    cases hx : (x.name == n) with
    | true =>
      simp only [updateOwner, hx, if_true, List.filter_cons, hq]
      by_cases hq2 : q x = true <;> simp [hq2]
    | false =>
      simp only [updateOwner, hx, Bool.false_eq_true, if_false,
        List.filter_cons]
      by_cases hq2 : q x = true <;> simp [hq2, ih]

theorem updateOwner_len (l : List MediaOwner) (n : Str)
    (f : MediaOwner → MediaOwner) :
    (updateOwner l n f).length = l.length := by
  induction l with
  | nil => rfl
  | cons x rest ih =>
    cases hx : (x.name == n) with
    | true => simp [updateOwner, hx]
    | false => simp [updateOwner, hx, ih]

theorem find?_updateOwner {l : List MediaOwner} {n : Str} {o : MediaOwner}
    (f : MediaOwner → MediaOwner)
    (h : l.find? (fun x => x.name == n) = some o)
    (hn : (f o).name = o.name) :
    (updateOwner l n f).find? (fun x => x.name == n) = some (f o) := by
  induction l with
  | nil => simp at h
  | cons x rest ih =>
    cases hx : (x.name == n) with
    | true =>
      rw [find?_cons_true hx] at h
      injection h with h
      subst h
      simp only [updateOwner, hx, if_true]
      exact find?_cons_true (by rw [hn]; exact hx)
    | false =>
      rw [find?_cons_false hx] at h
      simp only [updateOwner, hx, Bool.false_eq_true, if_false]
      rw [find?_cons_false hx]
      exact ih h

theorem find?_append_some {l : List MediaOwner} {n : Str}
    (o : MediaOwner) (h : l.find? (fun x => x.name == n) = none)
    (hp : (o.name == n) = true) :
    (l ++ [o]).find? (fun x => x.name == n) = some o := by
  induction l with
  | nil => rw [List.nil_append]; exact find?_cons_true hp
  | cons x rest ih =>
    cases hx : (x.name == n) with
    | true => rw [find?_cons_true hx] at h; simp at h
    | false =>
      rw [find?_cons_false hx] at h
      simp only [List.cons_append]
      rw [find?_cons_false hx]
      exact ih h

theorem updateOwner_append {l : List MediaOwner} {n : Str} (o : MediaOwner)
    (f : MediaOwner → MediaOwner)
    (h : l.find? (fun x => x.name == n) = none)
    (ho : (o.name == n) = true) :
    updateOwner (l ++ [o]) n f = l ++ [f o] := by
  induction l with
  | nil => simp [updateOwner, ho]
  | cons x rest ih =>
    cases hx : (x.name == n) with
    | true => rw [find?_cons_true hx] at h; simp at h
    | false =>
      rw [find?_cons_false hx] at h
      simp only [List.cons_append, updateOwner, hx, Bool.false_eq_true,
        if_false]
      exact congrArg (fun z => x :: z) (ih h)

theorem removeOwner_append {l : List MediaOwner} {n : Str} (o : MediaOwner)
    (h : l.find? (fun x => x.name == n) = none)
    (ho : (o.name == n) = true) :
    removeOwner (l ++ [o]) n = l := by
  induction l with
  | nil => simp [removeOwner, ho]
  | cons x rest ih =>
    cases hx : (x.name == n) with
    | true => rw [find?_cons_true hx] at h; simp at h
    | false =>
      rw [find?_cons_false hx] at h
      simp only [List.cons_append, removeOwner, hx, Bool.false_eq_true,
        if_false]
      exact congrArg (fun z => x :: z) (ih h)

theorem filter_pos_of_find? {l : List MediaOwner} {n : Str}
    {o : MediaOwner} (q : MediaOwner → Bool)
    (h : l.find? (fun x => x.name == n) = some o) (hq : q o = true) :
    1 ≤ (l.filter q).length := by
  have hmem : o ∈ l := List.mem_of_find?_eq_some h
  have hf : o ∈ l.filter q := List.mem_filter.mpr ⟨hmem, hq⟩
  exact List.length_pos.mpr (List.ne_nil_of_mem hf)

theorem name_eq_of_find? {l : List MediaOwner} {n : Str} {o : MediaOwner}
    (h : l.find? (fun x => x.name == n) = some o) : o.name = n := by
  have := List.find?_some h
  simpa using this

/-! Frame lemmas for the transport operations. -/

theorem transport_suspend_frame (t : MediaTransport) :
    (transport_suspend t).owners = t.owners ∧
    (transport_suspend t).read_lock = t.read_lock ∧
    (transport_suspend t).write_lock = t.write_lock ∧
    (transport_suspend t).fd = t.fd ∧
    (transport_suspend t).imtu = t.imtu ∧
    (transport_suspend t).omtu = t.omtu ∧
    (transport_suspend t).profile = t.profile ∧
    (transport_suspend t).idle = t.idle ∧
    (transport_suspend t).in_use = false ∧
    ∃ e, (e = Event.sepUnlock ∨ e = Event.headsetUnlock) ∧
      (transport_suspend t).log = t.log ++ [e] := by
  unfold transport_suspend suspend_a2dp suspend_headset
  cases t.profile <;> simp

theorem media_owner_remove_owners (t : MediaTransport) (o : MediaOwner) :
    (media_owner_remove t o).owners = removeOwner t.owners o.name := by
  simp only [media_owner_remove, media_transport_release, acquire_request_free,
    transport_suspend, suspend_a2dp, suspend_headset]
  repeat' split
  all_goals simp

theorem media_owner_remove_read (t : MediaTransport) (o : MediaOwner) :
    (media_owner_remove t o).read_lock
      = (if holdsRead o then false else t.read_lock) := by
  simp only [media_owner_remove, media_transport_release, acquire_request_free,
    transport_suspend, suspend_a2dp, suspend_headset, holdsRead]
  repeat' split
  all_goals simp_all

theorem media_owner_remove_write (t : MediaTransport) (o : MediaOwner) :
    (media_owner_remove t o).write_lock
      = (if holdsWrite o then false else t.write_lock) := by
  simp only [media_owner_remove, media_transport_release, acquire_request_free,
    transport_suspend, suspend_a2dp, suspend_headset, holdsWrite]
  repeat' split
  all_goals simp_all

theorem media_owner_remove_fd (t : MediaTransport) (o : MediaOwner) :
    (media_owner_remove t o).fd = t.fd ∧
    (media_owner_remove t o).imtu = t.imtu ∧
    (media_owner_remove t o).omtu = t.omtu ∧
    (media_owner_remove t o).profile = t.profile ∧
    (media_owner_remove t o).idle = t.idle := by
  simp only [media_owner_remove, media_transport_release, acquire_request_free,
    transport_suspend, suspend_a2dp, suspend_headset]
  repeat' split
  all_goals simp

theorem transport_resume_frame (t : MediaTransport) (ora : Oracle) :
    (transport_resume t ora).1.owners = t.owners ∧
    (transport_resume t ora).1.read_lock = t.read_lock ∧
    (transport_resume t ora).1.write_lock = t.write_lock ∧
    (transport_resume t ora).1.fd = t.fd ∧
    (transport_resume t ora).1.imtu = t.imtu ∧
    (transport_resume t ora).1.omtu = t.omtu ∧
    (transport_resume t ora).1.log = t.log ∧
    (transport_resume t ora).1.idle = t.idle ∧
    (transport_resume t ora).1.profile = t.profile := by
  simp only [transport_resume, resume_a2dp, resume_a2dp_stream,
    resume_headset]
  repeat' split
  all_goals simp

theorem media_transport_set_fd_frame (t : MediaTransport) (fd : Int)
    (imtu omtu : Nat) :
    (media_transport_set_fd t fd imtu omtu).owners = t.owners ∧
    (media_transport_set_fd t fd imtu omtu).read_lock = t.read_lock ∧
    (media_transport_set_fd t fd imtu omtu).write_lock = t.write_lock ∧
    (media_transport_set_fd t fd imtu omtu).idle = t.idle ∧
    (media_transport_set_fd t fd imtu omtu).profile = t.profile := by
  simp only [media_transport_set_fd]
  repeat' split
  all_goals simp

/-- Teardown of an owner found in the owner list preserves the lock
invariant: the removed owner's lock bits are exactly the ones it held. -/
theorem media_owner_remove_LockInv {t : MediaTransport} {o : MediaOwner}
    {n : Str} (h : t.owners.find? (fun x => x.name == n) = some o)
    (hn : o.name = n) (hi : LockInv t) : LockInv (media_owner_remove t o) := by
  obtain ⟨hir, hiw⟩ := hi
  have hown : (media_owner_remove t o).owners = removeOwner t.owners o.name :=
    media_owner_remove_owners t o
  have hread := media_owner_remove_read t o
  have hwrite := media_owner_remove_write t o
  have h' : t.owners.find? (fun x => x.name == o.name) = some o := by
    rw [hn]; exact h
  have hr := removeOwner_filter_len holdsRead h'
  have hw := removeOwner_filter_len holdsWrite h'
  unfold LockInv rCount wCount at *
  constructor
  · rw [hown, hread]
    by_cases hro : holdsRead o = true
    · have hpos : 1 ≤ (t.owners.filter holdsRead).length :=
        filter_pos_of_find? holdsRead h' hro
      have hrl : t.read_lock = true := by
        cases hc : t.read_lock with
        | true => rfl
        | false =>
          rw [hc] at hir
          have hir0 : (t.owners.filter holdsRead).length = 0 := by
            simpa using hir
          omega
      have hir1 : (t.owners.filter holdsRead).length = 1 := by
        rw [hrl] at hir; simpa using hir
      have hgoal : ((removeOwner t.owners o.name).filter holdsRead).length
          = 0 := by
        simp only [hro, if_true] at hr
        omega
      simp [hro, hgoal]
    · have hro' : holdsRead o = false := by simpa using hro
      simp only [hro', Bool.false_eq_true, if_false] at hr ⊢
      omega
  · rw [hown, hwrite]
    by_cases hwo : holdsWrite o = true
    · have hpos : 1 ≤ (t.owners.filter holdsWrite).length :=
        filter_pos_of_find? holdsWrite h' hwo
      have hwl : t.write_lock = true := by
        cases hc : t.write_lock with
        | true => rfl
        | false =>
          rw [hc] at hiw
          have hiw0 : (t.owners.filter holdsWrite).length = 0 := by
            simpa using hiw
          omega
      have hiw1 : (t.owners.filter holdsWrite).length = 1 := by
        rw [hwl] at hiw; simpa using hiw
      have hgoal : ((removeOwner t.owners o.name).filter holdsWrite).length
          = 0 := by
        simp only [hwo, if_true] at hw
        omega
      simp [hwo, hgoal]
    · have hwo' : holdsWrite o = false := by simpa using hwo
      simp only [hwo', Bool.false_eq_true, if_false] at hw ⊢
      omega

theorem media_transport_acquire_some {t : MediaTransport} {a : Str}
    {t1 : MediaTransport} (h : media_transport_acquire t a = some t1) :
    t1.owners = t.owners ∧
    t1.read_lock = (t.read_lock || g_strstr a ['r']) ∧
    t1.write_lock = (t.write_lock || g_strstr a ['w']) ∧
    t1.fd = t.fd ∧ t1.imtu = t.imtu ∧ t1.omtu = t.omtu ∧
    t1.log = t.log ∧ t1.idle = t.idle ∧ t1.profile = t.profile ∧
    t1.in_use = t.in_use ∧ t1.session = t.session ∧
    (g_strstr a ['r'] = true → t.read_lock = false) ∧
    (g_strstr a ['w'] = true → t.write_lock = false) := by
  simp only [media_transport_acquire] at h
  split_ifs at h with h1 h2 h3
  injection h with h
  subst h
  refine ⟨rfl, rfl, rfl, rfl, rfl, rfl, rfl, rfl, rfl, rfl, rfl, ?_, ?_⟩
  · intro hr
    cases hrd : t.read_lock with
    | false => rfl
    | true => exact absurd (by simp [hr, hrd]) h1
  · intro hw
    cases hwd : t.write_lock with
    | false => rfl
    | true => exact absurd (by simp [hw, hwd]) h2

theorem rCount_append_single (l : List MediaOwner) (o : MediaOwner) :
    rCount (l ++ [o]) = rCount l + (if holdsRead o then 1 else 0) := by
  unfold rCount
  rw [List.filter_append, List.length_append]
  congr 1
  simp only [List.filter]
  cases h : holdsRead o <;> simp [h]

theorem wCount_append_single (l : List MediaOwner) (o : MediaOwner) :
    wCount (l ++ [o]) = wCount l + (if holdsWrite o then 1 else 0) := by
  unfold wCount
  rw [List.filter_append, List.length_append]
  congr 1
  simp only [List.filter]
  cases h : holdsWrite o <;> simp [h]

theorem acquire_resume_LockInv (t2 : MediaTransport) (sender : Str)
    (msg : Nat) (ora : Oracle) (hi : LockInv t2) :
    LockInv (acquire_resume t2 sender msg ora).1 := by
  obtain ⟨ho, hr, hw, _, _, _, _, _, _⟩ := transport_resume_frame t2 ora
  have hi5 : LockInv { (transport_resume t2 ora).1 with
      owners := (updateOwner (transport_resume t2 ora).1.owners sender
        (fun o => { o with
          request := some ⟨msg, (transport_resume t2 ora).2⟩ })) } := by
    constructor
    · show rCount (updateOwner (transport_resume t2 ora).1.owners sender
          (fun o => { o with
            request := some ⟨msg, (transport_resume t2 ora).2⟩ }))
        = if (transport_resume t2 ora).1.read_lock = true then 1 else 0
      unfold rCount
      rw [updateOwner_filter_len_inv holdsRead
        (fun o => { o with
          request := some ⟨msg, (transport_resume t2 ora).2⟩ })
        (fun x => rfl)]
      rw [ho, hr]
      exact hi.1
    · show wCount (updateOwner (transport_resume t2 ora).1.owners sender
          (fun o => { o with
            request := some ⟨msg, (transport_resume t2 ora).2⟩ }))
        = if (transport_resume t2 ora).1.write_lock = true then 1 else 0
      unfold wCount
      rw [updateOwner_filter_len_inv holdsWrite
        (fun o => { o with
          request := some ⟨msg, (transport_resume t2 ora).2⟩ })
        (fun x => rfl)]
      rw [ho, hw]
      exact hi.2
  simp only [acquire_resume]
  split
  · split
    · rename_i o hfind
      simp only [media_transport_find_owner] at hfind
      exact media_owner_remove_LockInv hfind (name_eq_of_find? hfind) hi5
    · exact hi5
  · exact hi5

theorem media_owner_create_LockInv {t t1 : MediaTransport} {a : Str}
    (hacq : media_transport_acquire t a = some t1) (s : Str)
    (hi : LockInv t) : LockInv (media_owner_create t1 s a) := by
  obtain ⟨hown, hrd, hwr, _, _, _, _, _, _, _, _, hri, hwi⟩ :=
    media_transport_acquire_some hacq
  constructor
  · have hc : (media_owner_create t1 s a).owners
        = t1.owners ++ [{ name := s, accesstype := a, request := none,
                          watch := true }] := rfl
    have hrl : (media_owner_create t1 s a).read_lock = t1.read_lock := rfl
    rw [hc, hrl, rCount_append_single, hown, hrd]
    have hnew : holdsRead ({ name := s, accesstype := a, request := none,
                             watch := true } : MediaOwner)
        = g_strstr a ['r'] := rfl
    rw [hnew]
    cases hra : g_strstr a ['r'] with
    | true =>
      have h0 : t.read_lock = false := hri hra
      have h1 := hi.1
      rw [h0] at h1
      simp at h1
      simp [h1, h0]
    | false =>
      have h1 := hi.1
      simp [h1]
  · have hc : (media_owner_create t1 s a).owners
        = t1.owners ++ [{ name := s, accesstype := a, request := none,
                          watch := true }] := rfl
    have hwl : (media_owner_create t1 s a).write_lock = t1.write_lock := rfl
    rw [hc, hwl, wCount_append_single, hown, hwr]
    have hnew : holdsWrite ({ name := s, accesstype := a, request := none,
                              watch := true } : MediaOwner)
        = g_strstr a ['w'] := rfl
    rw [hnew]
    cases hwa : g_strstr a ['w'] with
    | true =>
      have h0 : t.write_lock = false := hwi hwa
      have h1 := hi.2
      rw [h0] at h1
      simp at h1
      simp [h1, h0]
    | false =>
      have h1 := hi.2
      simp [h1]

theorem acquire_LockInv (t : MediaTransport) (s : Str) (m : Nat) (a : Str)
    (ora : Oracle) (hi : LockInv t) : LockInv (acquire t s m a ora).1 := by
  unfold acquire
  cases hf : media_transport_find_owner t s with
  | some o => exact hi
  | none =>
    cases hacq : media_transport_acquire t a with
    | none => exact hi
    | some t1 =>
      exact acquire_resume_LockInv _ _ _ _
        (media_owner_create_LockInv hacq s hi)

theorem LockInv_of_eq {t t' : MediaTransport} (ho : t'.owners = t.owners)
    (hr : t'.read_lock = t.read_lock) (hw : t'.write_lock = t.write_lock)
    (hi : LockInv t) : LockInv t' := by
  constructor
  · unfold rCount
    rw [ho, hr]
    exact hi.1
  · unfold wCount
    rw [ho, hw]
    exact hi.2

theorem media_transport_release_frame (t : MediaTransport) (a : Str) :
    (media_transport_release t a).owners = t.owners ∧
    (media_transport_release t a).read_lock
      = (if g_strstr a ['r'] then false else t.read_lock) ∧
    (media_transport_release t a).write_lock
      = (if g_strstr a ['w'] then false else t.write_lock) ∧
    (media_transport_release t a).log = t.log ∧
    (media_transport_release t a).fd = t.fd ∧
    (media_transport_release t a).imtu = t.imtu ∧
    (media_transport_release t a).omtu = t.omtu ∧
    (media_transport_release t a).idle = t.idle ∧
    (media_transport_release t a).profile = t.profile := by
  simp only [media_transport_release]
  repeat' split
  all_goals simp_all

theorem acquire_request_free_frame (t : MediaTransport)
    (req : AcquireRequest) :
    (acquire_request_free t req).owners = t.owners ∧
    (acquire_request_free t req).read_lock = t.read_lock ∧
    (acquire_request_free t req).write_lock = t.write_lock ∧
    (acquire_request_free t req).fd = t.fd ∧
    (acquire_request_free t req).idle = t.idle := by
  simp only [acquire_request_free]
  repeat' split
  all_goals simp

theorem g_strstr_delimit (s a : Str) (c : Char) (hc : c ≠ ' ') :
    g_strstr (g_strdelimit s a) [c] = (g_strstr s [c] && !(g_strstr a [c])) := by
  cases hra : g_strstr a [c] with
  | true =>
    have hmem : c ∈ a := (g_strstr_single a c).mp hra
    have hz : g_strstr (g_strdelimit s a) [c] = false := by
      rw [g_strstr_single_false]
      intro hm
      exact ((mem_g_strdelimit hc).mp hm).2 hmem
    simp [hz]
  | false =>
    have hna : c ∉ a := (g_strstr_single_false a c).mp hra
    cases hs : g_strstr s [c] with
    | true =>
      have hmem : c ∈ g_strdelimit s a :=
        (mem_g_strdelimit hc).mpr ⟨(g_strstr_single s c).mp hs, hna⟩
      simp [(g_strstr_single _ c).mpr hmem]
    | false =>
      have hn : c ∉ s := (g_strstr_single_false s c).mp hs
      have hz : g_strstr (g_strdelimit s a) [c] = false := by
        rw [g_strstr_single_false]
        intro hm
        exact hn ((mem_g_strdelimit hc).mp hm).1
      simp [hz]

theorem count_one_of_holder {l : List MediaOwner} {n : Str} {o : MediaOwner}
    {b : Bool} (q : MediaOwner → Bool)
    (hf : l.find? (fun x => x.name == n) = some o)
    (hi : (l.filter q).length = if b = true then 1 else 0)
    (ho : q o = true) : b = true ∧ (l.filter q).length = 1 := by
  have hpos := filter_pos_of_find? q hf ho
  cases b with
  | false =>
    rw [show (if (false : Bool) = true then 1 else 0) = 0 from rfl] at hi
    omega
  | true =>
    rw [show (if (true : Bool) = true then 1 else 0) = 1 from rfl] at hi
    exact ⟨rfl, hi⟩

theorem release_LockInv (t : MediaTransport) (s a : Str) (hi : LockInv t) :
    LockInv (release t s a).1 := by
  unfold release
  cases hf : media_transport_find_owner t s with
  | none => exact hi
  | some o =>
    simp only [media_transport_find_owner] at hf
    dsimp only
    split_ifs with heq hsub
    · exact media_owner_remove_LockInv hf (name_eq_of_find? hf) hi
    · obtain ⟨ho1, hr1, hw1, _⟩ := media_transport_release_frame t a
      have hf1 : (media_transport_release t a).owners.find?
          (fun x => x.name == s) = some o := by rw [ho1]; exact hf
      have hupdR := updateOwner_filter_len holdsRead
        (fun ow => { ow with accesstype := g_strdelimit ow.accesstype a }) hf1
      have hupdW := updateOwner_filter_len holdsWrite
        (fun ow => { ow with accesstype := g_strdelimit ow.accesstype a }) hf1
      rw [ho1] at hupdR hupdW
      have hdR : holdsRead { o with
          accesstype := g_strdelimit o.accesstype a }
          = (holdsRead o && !(g_strstr a ['r'])) := by
        unfold holdsRead
        exact g_strstr_delimit o.accesstype a 'r' (by decide)
      have hdW : holdsWrite { o with
          accesstype := g_strdelimit o.accesstype a }
          = (holdsWrite o && !(g_strstr a ['w'])) := by
        unfold holdsWrite
        exact g_strstr_delimit o.accesstype a 'w' (by decide)
      constructor
      · show rCount (updateOwner (media_transport_release t a).owners s _)
          = if (media_transport_release t a).read_lock = true then 1 else 0
        unfold rCount
        dsimp only at hupdR
        rw [ho1, hr1]
        cases hra : g_strstr a ['r'] with
        | true =>
          have hro : holdsRead o = true := by
            unfold holdsRead
            exact (g_strstr_single _ 'r').mpr
              (g_strstr_mem hsub ((g_strstr_single a 'r').mp hra))
          obtain ⟨hb, hcnt⟩ := count_one_of_holder holdsRead hf hi.1 hro
          rw [hdR, hra] at hupdR
          simp [hro] at hupdR
          rw [if_pos (rfl : true = true),
              if_neg (by decide : ¬(false = true))]
          omega
        | false =>
          rw [hdR, hra] at hupdR
          simp only [Bool.not_false, Bool.and_true] at hupdR
          rw [if_neg (by decide : ¬(false = true))]
          have h1 := hi.1
          unfold rCount at h1
          omega
      · show wCount (updateOwner (media_transport_release t a).owners s _)
          = if (media_transport_release t a).write_lock = true then 1 else 0
        unfold wCount
        dsimp only at hupdW
        rw [ho1, hw1]
        cases hwa : g_strstr a ['w'] with
        | true =>
          have hwo : holdsWrite o = true := by
            unfold holdsWrite
            exact (g_strstr_single _ 'w').mpr
              (g_strstr_mem hsub ((g_strstr_single a 'w').mp hwa))
          obtain ⟨hb, hcnt⟩ := count_one_of_holder holdsWrite hf hi.2 hwo
          rw [hdW, hwa] at hupdW
          simp [hwo] at hupdW
          rw [if_pos (rfl : true = true),
              if_neg (by decide : ¬(false = true))]
          omega
        | false =>
          rw [hdW, hwa] at hupdW
          simp only [Bool.not_false, Bool.and_true] at hupdW
          rw [if_neg (by decide : ¬(false = true))]
          have h2 := hi.2
          unfold wCount at h2
          omega
    · exact hi

theorem media_owner_exit_LockInv (t : MediaTransport) (s : Str)
    (hi : LockInv t) : LockInv (media_owner_exit t s) := by
  unfold media_owner_exit
  cases hf : media_transport_find_owner t s with
  | none => exact hi
  | some o =>
    simp only [media_transport_find_owner] at hf
    dsimp only
    cases hreq : o.request with
    | some req =>
      dsimp only
      obtain ⟨hfo, hfr, hfw, _, _⟩ := acquire_request_free_frame t req
      have hff : (acquire_request_free t req).owners.find?
          (fun x => x.name == s) = some o := by rw [hfo]; exact hf
      have hns : o.name = s := name_eq_of_find? hf
      have hup := find?_updateOwner
        (fun _ => { o with watch := false, request := none }) hff rfl
      refine media_owner_remove_LockInv hup hns ?_
      have hcR := updateOwner_filter_len holdsRead
        (fun _ => { o with watch := false, request := none }) hff
      have hcW := updateOwner_filter_len holdsWrite
        (fun _ => { o with watch := false, request := none }) hff
      dsimp only at hcR hcW
      have heqR : holdsRead { name := o.name, accesstype := o.accesstype, request := none, watch := false } = holdsRead o := rfl
      have heqW : holdsWrite { name := o.name, accesstype := o.accesstype, request := none, watch := false } = holdsWrite o := rfl
      rw [heqR] at hcR
      rw [heqW] at hcW
      constructor
      · show rCount (updateOwner (acquire_request_free t req).owners s _)
          = if (acquire_request_free t req).read_lock = true then 1 else 0
        unfold rCount
        rw [hfo] at hcR
        rw [hfo, hfr]
        have h1 := hi.1
        unfold rCount at h1
        omega
      · show wCount (updateOwner (acquire_request_free t req).owners s _)
          = if (acquire_request_free t req).write_lock = true then 1 else 0
        unfold wCount
        rw [hfo] at hcW
        rw [hfo, hfw]
        have h2 := hi.2
        unfold wCount at h2
        omega
    | none =>
      dsimp only
      have hns : o.name = s := name_eq_of_find? hf
      have hup := find?_updateOwner
        (fun _ => { o with watch := false, request := none }) hf rfl
      refine media_owner_remove_LockInv hup hns ?_
      have hcR := updateOwner_filter_len holdsRead
        (fun _ => { o with watch := false, request := none }) hf
      have hcW := updateOwner_filter_len holdsWrite
        (fun _ => { o with watch := false, request := none }) hf
      dsimp only at hcR hcW
      have heqR : holdsRead { name := o.name, accesstype := o.accesstype, request := none, watch := false } = holdsRead o := rfl
      have heqW : holdsWrite { name := o.name, accesstype := o.accesstype, request := none, watch := false } = holdsWrite o := rfl
      rw [heqR] at hcR
      rw [heqW] at hcW
      constructor
      · show rCount (updateOwner t.owners s _)
          = if t.read_lock = true then 1 else 0
        unfold rCount
        have h1 := hi.1
        unfold rCount at h1
        omega
      · show wCount (updateOwner t.owners s _)
          = if t.write_lock = true then 1 else 0
        unfold wCount
        have h2 := hi.2
        unfold wCount at h2
        omega

theorem a2dp_resume_complete_LockInv (t : MediaTransport) (s : Str)
    (oc : A2dpOutcome) (hi : LockInv t) :
    LockInv (a2dp_resume_complete t s oc) := by
  unfold a2dp_resume_complete
  cases hf : media_transport_find_owner t s with
  | none => exact hi
  | some o =>
    dsimp only
    cases hreq : o.request with
    | none => exact hi
    | some req =>
      dsimp only
      have hmain : LockInv { t with owners := (updateOwner t.owners s
          (fun ow => { ow with request := some { req with id := 0 } })) } := by
        constructor
        · show rCount (updateOwner t.owners s _)
            = if t.read_lock = true then 1 else 0
          unfold rCount
          rw [updateOwner_filter_len_inv holdsRead
            (fun ow => { ow with request := some { req with id := 0 } })
            (fun x => rfl)]
          exact hi.1
        · show wCount (updateOwner t.owners s _)
            = if t.write_lock = true then 1 else 0
          unfold wCount
          rw [updateOwner_filter_len_inv holdsWrite
            (fun ow => { ow with request := some { req with id := 0 } })
            (fun x => rfl)]
          exact hi.2
      obtain ⟨hso, hsr, hsw, _, _⟩ := media_transport_set_fd_frame
        { t with owners := (updateOwner t.owners s
          (fun ow => { ow with request := some { req with id := 0 } })) }
          oc.fd oc.imtu oc.omtu
      split_ifs with h1 h2 h3 h4
      · exact LockInv_of_eq rfl rfl rfl hmain
      · exact LockInv_of_eq rfl rfl rfl hmain
      · exact LockInv_of_eq rfl rfl rfl hmain
      · exact LockInv_of_eq hso hsr hsw hmain
      · exact LockInv_of_eq hso hsr hsw hmain

theorem headset_resume_complete_LockInv (t : MediaTransport) (s : Str)
    (oc : HeadsetOutcome) (hi : LockInv t) :
    LockInv (headset_resume_complete t s oc) := by
  unfold headset_resume_complete
  cases hf : media_transport_find_owner t s with
  | none => exact hi
  | some o =>
    simp only [media_transport_find_owner] at hf
    dsimp only
    cases hreq : o.request with
    | none => exact hi
    | some req =>
      dsimp only
      have hns : o.name = s := name_eq_of_find? hf
      have hup := find?_updateOwner
        (fun _ => { o with request := some { req with id := 0 } }) hf rfl
      have hmain : LockInv { t with owners := (updateOwner t.owners s
          (fun _ => { o with request := some { req with id := 0 } })) } := by
        have hcR := updateOwner_filter_len holdsRead
          (fun _ => { o with request := some { req with id := 0 } }) hf
        have hcW := updateOwner_filter_len holdsWrite
          (fun _ => { o with request := some { req with id := 0 } }) hf
        dsimp only at hcR hcW
        constructor
        · show rCount (updateOwner t.owners s _)
            = if t.read_lock = true then 1 else 0
          unfold rCount
          have heq2 : holdsRead ({ o with
              request := some { req with id := 0 } } : MediaOwner)
              = holdsRead o := rfl
          rw [heq2] at hcR
          have h1 := hi.1
          unfold rCount at h1
          omega
        · show wCount (updateOwner t.owners s _)
            = if t.write_lock = true then 1 else 0
          unfold wCount
          have heq2 : holdsWrite ({ o with
              request := some { req with id := 0 } } : MediaOwner)
              = holdsWrite o := rfl
          rw [heq2] at hcW
          have h2 := hi.2
          unfold wCount at h2
          omega
      obtain ⟨hso, hsr, hsw, _, _⟩ := media_transport_set_fd_frame
        { t with owners := (updateOwner t.owners s
          (fun _ => { o with request := some { req with id := 0 } })) }
          oc.fd 48 48
      have hup2 : (media_transport_set_fd { t with owners :=
          (updateOwner t.owners s (fun _ => { o with
            request := some { req with id := 0 } })) } oc.fd 48 48).owners.find?
          (fun x => x.name == s)
          = some { o with request := some { req with id := 0 } } := by
        rw [hso]
        exact hup
      split_ifs with h1 h2 h3
      · exact media_owner_remove_LockInv hup hns hmain
      · exact media_owner_remove_LockInv hup hns hmain
      · exact LockInv_of_eq hso hsr hsw hmain
      · exact media_owner_remove_LockInv hup2 hns
          (LockInv_of_eq hso hsr hsw hmain)

theorem run_idle_LockInv (t : MediaTransport) (hi : LockInv t) :
    LockInv (run_idle t) := by
  unfold run_idle
  cases hq : t.idle with
  | nil => exact hi
  | cons s rest =>
    dsimp only
    cases hf : media_transport_find_owner { t with idle := rest } s with
    | none => exact LockInv_of_eq rfl rfl rfl hi
    | some o =>
      simp only [media_transport_find_owner] at hf
      have hmain : LockInv ({ t with idle := rest } : MediaTransport) :=
        LockInv_of_eq rfl rfl rfl hi
      exact media_owner_remove_LockInv hf (name_eq_of_find? hf) hmain

theorem step_LockInv (t : MediaTransport) (op : Op) (hi : LockInv t) :
    LockInv (step t op) := by
  cases op with
  | opAcquire s m a ora => exact acquire_LockInv t s m a ora hi
  | opRelease s a => exact release_LockInv t s a hi
  | opDisconnect s => exact media_owner_exit_LockInv t s hi
  | opA2dpComplete s oc => exact a2dp_resume_complete_LockInv t s oc hi
  | opHeadsetComplete s oc => exact headset_resume_complete_LockInv t s oc hi
  | opRunIdle => exact run_idle_LockInv t hi

theorem run_LockInv (t : MediaTransport) (ops : List Op) (hi : LockInv t) :
    LockInv (run t ops) := by
  induction ops generalizing t with
  | nil => exact hi
  | cons op rest ih => exact ih _ (step_LockInv t op hi)

/-- Claim C2: for every sequence of Acquire, Release and client-disconnect
operations (together with the asynchronous completion callbacks and the
deferred idle tasks) on a freshly created transport of either profile, at
every reachable state `read_lock` is true iff exactly one live owner holds
Read access, and `write_lock` is true iff exactly one live owner holds
Write access. -/
theorem c2_locks_iff_unique_holder (p : Profile) (ops : List Op) :
    ((run (initTransport p) ops).read_lock = true ↔
      rCount (run (initTransport p) ops).owners = 1) ∧
    ((run (initTransport p) ops).write_lock = true ↔
      wCount (run (initTransport p) ops).owners = 1) := by
  have hinit : LockInv (initTransport p) := by
    constructor <;> rfl
  obtain ⟨h1, h2⟩ := run_LockInv (initTransport p) ops hinit
  constructor
  · constructor
    · intro hr
      rw [hr] at h1
      simpa using h1
    · intro hc
      cases hb : (run (initTransport p) ops).read_lock with
      | true => rfl
      | false =>
        rw [hb] at h1
        rw [hc] at h1
        simp at h1
  · constructor
    · intro hw
      rw [hw] at h2
      simpa using h2
    · intro hc
      cases hb : (run (initTransport p) ops).write_lock with
      | true => rfl
      | false =>
        rw [hb] at h2
        rw [hc] at h2
        simp at h2

theorem media_owner_remove_counts (t : MediaTransport) (o : MediaOwner)
    (req : AcquireRequest) (h : o.request = some req) :
    errCount (media_owner_remove t o).log req.msg
      = errCount t.log req.msg + 1 ∧
    cancelCount (media_owner_remove t o).log req.id
      = cancelCount t.log req.id + (if req.id = 0 then 0 else 1) := by
  unfold errCount cancelCount
  simp only [media_owner_remove, media_transport_release, acquire_request_free,
    transport_suspend, suspend_a2dp, suspend_headset, h]
  constructor
  · repeat' split
    all_goals simp_all [List.count_append, List.count_cons]
  · repeat' split
    all_goals simp_all [List.count_append, List.count_cons]

theorem media_owner_remove_counts_none (t : MediaTransport) (o : MediaOwner)
    (h : o.request = none) (m i : Nat) :
    errCount (media_owner_remove t o).log m = errCount t.log m ∧
    cancelCount (media_owner_remove t o).log i = cancelCount t.log i := by
  unfold errCount cancelCount
  simp only [media_owner_remove, media_transport_release, acquire_request_free,
    transport_suspend, suspend_a2dp, suspend_headset, h]
  constructor
  · repeat' split
    all_goals simp_all [List.count_append, List.count_cons]
  · repeat' split
    all_goals simp_all [List.count_append, List.count_cons]

theorem acquire_request_free_counts (t : MediaTransport)
    (req : AcquireRequest) (m : Nat) :
    errCount (acquire_request_free t req).log m = errCount t.log m ∧
    cancelCount (acquire_request_free t req).log req.id
      = cancelCount t.log req.id + (if req.id = 0 then 0 else 1) := by
  unfold errCount cancelCount acquire_request_free
  constructor
  · repeat' split
    all_goals simp_all [List.count_append, List.count_cons]
  · repeat' split
    all_goals simp_all [List.count_append, List.count_cons]

theorem media_owner_exit_counts (t : MediaTransport) (s : Str)
    (o : MediaOwner) (req : AcquireRequest)
    (hf : media_transport_find_owner t s = some o)
    (hreq : o.request = some req) :
    errCount (media_owner_exit t s).log req.msg = errCount t.log req.msg ∧
    cancelCount (media_owner_exit t s).log req.id
      = cancelCount t.log req.id + (if req.id = 0 then 0 else 1) := by
  unfold media_owner_exit
  rw [hf]
  dsimp only
  rw [hreq]
  dsimp only
  have hrm := media_owner_remove_counts_none
    { (acquire_request_free t req) with
      owners := (updateOwner (acquire_request_free t req).owners s
        (fun _ => { o with watch := false, request := none })) }
    { o with watch := false, request := none } rfl
  have hfree := acquire_request_free_counts t req
  constructor
  · rw [(hrm req.msg req.id).1]
    exact (hfree req.msg).1
  · rw [(hrm req.msg req.id).2]
    exact (hfree req.msg).2

/-- Claim C3 (amended): Release fails with PermissionDenied and leaves the
transport — locks, owners and pending requests — unchanged whenever the
requested access-type string is neither exactly the Owner's held access
string nor a substring of it (covering strings the Owner does not hold and
partially overlapping ones); the empty string, being a substring of every
held access, is instead accepted as a no-op partial release. -/
theorem c3_release_denied_amended (t : MediaTransport) (s a : Str)
    (o : MediaOwner) (hf : media_transport_find_owner t s = some o)
    (hne : o.accesstype ≠ a) (hnsub : g_strstr o.accesstype a = false) :
    release t s a = (t, DBusResult.errorReply) := by
  unfold release
  rw [hf]
  dsimp only
  rw [if_neg hne, if_neg (by simp [hnsub])]

/-- Witness for the amended C3 at a concrete input: owner A holds "rw";
Release("wr") is neither the held string nor a substring of it, so it is
rejected with no state change. -/
theorem c3_release_denied_amended_witness :
    release c3_state ['A'] ['w', 'r'] = (c3_state, DBusResult.errorReply) :=
  c3_release_denied_amended c3_state ['A'] ['w', 'r']
    { name := ['A'], accesstype := ['r', 'w'],
      request := some ⟨1, 5⟩, watch := true }
    (by decide) (by decide) (by decide)

/-- Claim C4 (amended): publishing a channel descriptor whose handle equals
the stored one is a complete no-op (nothing stored, no notification, so a
repeated publish emits nothing); publishing one with a new handle stores
the handle and both MTU values and emits exactly one IMTU and one OMTU
notification unconditionally — also for an MTU field whose value did not
change. -/
theorem c4_set_fd_amended (t : MediaTransport) (fd : Int)
    (imtu omtu : Nat) :
    (t.fd = fd → media_transport_set_fd t fd imtu omtu = t) ∧
    (t.fd ≠ fd →
      (media_transport_set_fd t fd imtu omtu).fd = fd ∧
      (media_transport_set_fd t fd imtu omtu).imtu = imtu ∧
      (media_transport_set_fd t fd imtu omtu).omtu = omtu ∧
      (media_transport_set_fd t fd imtu omtu).log
        = t.log ++ [Event.propChanged "IMTU", Event.propChanged "OMTU"]) ∧
    media_transport_set_fd (media_transport_set_fd t fd imtu omtu) fd imtu
        omtu
      = media_transport_set_fd t fd imtu omtu := by
  refine ⟨?_, ?_, ?_⟩
  · intro h
    unfold media_transport_set_fd
    rw [if_pos h]
  · intro h
    unfold media_transport_set_fd
    rw [if_neg h]
    exact ⟨rfl, rfl, rfl, rfl⟩
  · by_cases h : t.fd = fd
    · unfold media_transport_set_fd
      rw [if_pos h, if_pos h]
    · have hstep : media_transport_set_fd t fd imtu omtu
          = { t with fd := fd, imtu := imtu, omtu := omtu,
                     log := t.log ++ [Event.propChanged "IMTU",
                                      Event.propChanged "OMTU"] } := by
        unfold media_transport_set_fd
        rw [if_neg h]
      rw [hstep]
      unfold media_transport_set_fd
      rw [if_pos rfl]

/-- Witness for the amended C4 at concrete inputs: republishing fd 1 on a
transport already holding fd 1 changes nothing, and publishing fd 2 with
an unchanged IMTU of 5 still appends exactly the IMTU and OMTU
notifications. -/
theorem c4_set_fd_amended_witness :
    media_transport_set_fd c4_state 1 9 9 = c4_state ∧
    (media_transport_set_fd c4_state 2 5 9).log
      = c4_state.log ++ [Event.propChanged "IMTU", Event.propChanged "OMTU"] :=
  ⟨(c4_set_fd_amended c4_state 1 9 9).1 (by decide),
   (((c4_set_fd_amended c4_state 2 5 9).2.1 (by decide)).2.2.2)⟩

/-- Claim C7 (amended): for an AcquireRequest destroyed before its resume
completes, the cancel hook runs at most once — exactly once when the
ticket is nonzero and never when the completion callback has already
cleared it to zero; forced teardown through the shared path delivers
exactly one error reply to the original caller, but on client disconnect
the request is freed before the shared teardown runs and no error reply is
delivered at all. -/
theorem c7_teardown_replies_amended (t : MediaTransport) (s : Str)
    (o : MediaOwner) (req : AcquireRequest)
    (hf : media_transport_find_owner t s = some o)
    (hreq : o.request = some req) :
    (errCount (media_owner_remove t o).log req.msg
        = errCount t.log req.msg + 1 ∧
      cancelCount (media_owner_remove t o).log req.id
        = cancelCount t.log req.id + (if req.id = 0 then 0 else 1)) ∧
    (errCount (media_owner_exit t s).log req.msg = errCount t.log req.msg ∧
      cancelCount (media_owner_exit t s).log req.id
        = cancelCount t.log req.id + (if req.id = 0 then 0 else 1)) :=
  ⟨media_owner_remove_counts t o req hreq,
   media_owner_exit_counts t s o req hf hreq⟩

/-- Witness for the amended C7 at a concrete input: owner A with pending
request (message 1, ticket 5); forced teardown sends one error reply and
one cancel, disconnect sends no error reply and one cancel. -/
theorem c7_teardown_replies_amended_witness :
    (errCount (media_owner_remove c7_state
        { name := ['A'], accesstype := ['r'],
          request := some ⟨1, 5⟩, watch := true }).log 1
      = errCount c7_state.log 1 + 1) ∧
    errCount (media_owner_exit c7_state ['A']).log 1
      = errCount c7_state.log 1 := by
  have h := c7_teardown_replies_amended c7_state ['A']
    { name := ['A'], accesstype := ['r'], request := some ⟨1, 5⟩,
      watch := true }
    ⟨1, 5⟩ (by decide) (by decide)
  exact ⟨h.1.1, h.2.1⟩

/-- Claim C5: when an a2dp (streaming-profile) resume fails asynchronously
in its completion callback, the owner teardown is not executed inline —
the owner count is unchanged, the log untouched, and a deferred
`remove_owner` task is appended to the idle queue; a headset
(voice-channel) asynchronous resume failure instead tears the owner down
synchronously within the callback: one owner is removed, nothing is
deferred, and the error reply is delivered immediately. -/
theorem c5_a2dp_defers_headset_inline (t : MediaTransport) (s : Str)
    (o : MediaOwner) (req : AcquireRequest) (oca : A2dpOutcome)
    (och : HeadsetOutcome) (hf : media_transport_find_owner t s = some o)
    (hreq : o.request = some req) (herr : oca.err = true)
    (hdev : och.devOk = false) :
    ((a2dp_resume_complete t s oca).owners.length = t.owners.length ∧
      (a2dp_resume_complete t s oca).idle = t.idle ++ [s] ∧
      (a2dp_resume_complete t s oca).log = t.log) ∧
    ((headset_resume_complete t s och).owners.length + 1
        = t.owners.length ∧
      (headset_resume_complete t s och).idle = t.idle ∧
      errCount (headset_resume_complete t s och).log req.msg
        = errCount t.log req.msg + 1) := by
  constructor
  · unfold a2dp_resume_complete
    rw [hf]
    dsimp only
    rw [hreq]
    dsimp only
    rw [if_pos herr]
    exact ⟨updateOwner_len t.owners s _, rfl, rfl⟩
  · unfold headset_resume_complete
    rw [hf]
    dsimp only
    rw [hreq]
    dsimp only
    rw [hdev]
    rw [if_pos (by decide : (!false) = true)]
    have hf' : List.find? (fun x => x.name == s) t.owners = some o := hf
    have hns : o.name = s := name_eq_of_find? hf'
    have hup := find?_updateOwner
      (fun _ => { o with request := some { req with id := 0 } }) hf' rfl
    have hrm := media_owner_remove_counts
      { t with owners := (updateOwner t.owners s
          (fun _ => { o with request := some { req with id := 0 } })) }
      { o with request := some { req with id := 0 } }
      { req with id := 0 } rfl
    have hlen := removeOwner_len hup
    rw [updateOwner_len] at hlen
    refine ⟨?_, ?_, ?_⟩
    · rw [media_owner_remove_owners]
      nth_rewrite 2 [hns]
      exact hlen
    · exact (media_owner_remove_fd _ _).2.2.2.2
    · exact hrm.1

/-- Witness for C5 at a concrete input: owner A with a pending request on
the respective transport; an erroring a2dp completion leaves the owner and
defers removal, a failing headset completion removes it inline with one
error reply. -/
theorem c5_a2dp_defers_headset_inline_witness :
    ((a2dp_resume_complete c7_state ['A']
        { err := true, streamOk := true, transportOk := true, fd := 3,
          imtu := 1, omtu := 1, sendOk := true }).owners.length
      = c7_state.owners.length) ∧
    (headset_resume_complete c7_state ['A']
        { devOk := false, fd := 3, sendOk := true }).owners.length + 1
      = c7_state.owners.length := by
  have h := c5_a2dp_defers_headset_inline c7_state ['A']
    { name := ['A'], accesstype := ['r'], request := some ⟨1, 5⟩,
      watch := true }
    ⟨1, 5⟩
    { err := true, streamOk := true, transportOk := true, fd := 3,
      imtu := 1, omtu := 1, sendOk := true }
    { devOk := false, fd := 3, sendOk := true }
    (by decide) (by decide) (by decide) (by decide)
  exact ⟨h.1.1, h.2.1⟩

/-- Claim C10: whenever removing an owner leaves the a2dp transport's owner
set empty, the suspend strategy runs unconditionally — the SEP unlock call
is issued exactly once more and `in_use` is cleared — with no guard on
`in_use`, so this also happens when resume failed synchronously before the
profile-level lock was ever taken. -/
theorem c10_suspend_unconditional (t : MediaTransport) (o : MediaOwner)
    (hp : t.profile = Profile.a2dp)
    (hempty : removeOwner t.owners o.name = []) :
    (media_owner_remove t o).log.count Event.sepUnlock
      = t.log.count Event.sepUnlock + 1 ∧
    (media_owner_remove t o).in_use = false := by
  constructor
  · simp only [media_owner_remove, media_transport_release,
      acquire_request_free, transport_suspend, suspend_a2dp, suspend_headset]
    repeat' split
    all_goals simp_all [List.count_append, List.count_cons]
  · simp only [media_owner_remove, media_transport_release,
      acquire_request_free, transport_suspend, suspend_a2dp, suspend_headset]
    repeat' split
    all_goals simp_all

/-- Witness for C10 at a concrete input: the sole owner of an a2dp
transport whose `in_use` is still false (its resume never acquired the SEP
lock) is removed, and the unlock call is issued anyway. -/
theorem c10_suspend_unconditional_witness :
    (media_owner_remove
        { initTransport Profile.a2dp with
            owners := [{ name := ['A'], accesstype := ['r'],
                         request := some ⟨1, 0⟩, watch := true }] }
        { name := ['A'], accesstype := ['r'], request := some ⟨1, 0⟩,
          watch := true }).log.count Event.sepUnlock
      = ({ initTransport Profile.a2dp with
            owners := [{ name := ['A'], accesstype := ['r'],
                         request := some ⟨1, 0⟩, watch := true }]
          } : MediaTransport).log.count Event.sepUnlock + 1 := by
  have h := c10_suspend_unconditional
    { initTransport Profile.a2dp with
        owners := [{ name := ['A'], accesstype := ['r'],
                     request := some ⟨1, 0⟩, watch := true }] }
    { name := ['A'], accesstype := ['r'], request := some ⟨1, 0⟩,
      watch := true }
    (by decide) (by decide)
  exact h.1

/-- Claim C6: when Acquire passes validation (no existing owner, lock bits
available) but the profile resume fails synchronously (ticket 0), the
freshly created owner is torn down immediately through the shared path:
the owner set, both lock bits, and the channel descriptor (fd and MTUs)
are restored to their pre-call values, exactly one error reply is
delivered for the pending Acquire message, and no reply is returned
inline (the method stays asynchronous). -/
theorem c6_sync_resume_failure_teardown (t : MediaTransport) (s : Str)
    (m : Nat) (a : Str) (ora : Oracle) (t1 : MediaTransport)
    (hf : media_transport_find_owner t s = none)
    (hacq : media_transport_acquire t a = some t1)
    (hres : (transport_resume (media_owner_create t1 s a) ora).2 = 0) :
    (acquire t s m a ora).1.owners = t.owners ∧
    (acquire t s m a ora).1.read_lock = t.read_lock ∧
    (acquire t s m a ora).1.write_lock = t.write_lock ∧
    (acquire t s m a ora).1.fd = t.fd ∧
    (acquire t s m a ora).1.imtu = t.imtu ∧
    (acquire t s m a ora).1.omtu = t.omtu ∧
    errCount (acquire t s m a ora).1.log m = errCount t.log m + 1 ∧
    (acquire t s m a ora).2 = DBusResult.noReply := by
  obtain ⟨hown, hread, hwrite, hfd1, him1, hom1, hlog1, hidl1, hpr1, _, _,
    hri, hwi⟩ := media_transport_acquire_some hacq
  obtain ⟨hro, hrr, hrw, hrfd, hrim, hrom, hrlog, hridl, hrpr⟩ :=
    transport_resume_frame (media_owner_create t1 s a) ora
  have hf' : t.owners.find? (fun x => x.name == s) = none := hf
  have hR1 : (transport_resume (media_owner_create t1 s a) ora).1.owners
      = t.owners ++ [{ name := s, accesstype := a, request := none,
                       watch := true }] := by
    rw [hro]
    show t1.owners ++ _ = _
    rw [hown]
  have hfind_base :
      (transport_resume (media_owner_create t1 s a) ora).1.owners.find?
        (fun x => x.name == s)
      = some { name := s, accesstype := a, request := none,
               watch := true } := by
    rw [hR1]
    exact find?_append_some _ hf' (by simp)
  have hfind5 := find?_updateOwner
    (fun o => { o with
      request := some ⟨m, (transport_resume (media_owner_create t1 s a)
        ora).2⟩ }) hfind_base rfl
  unfold acquire
  rw [hf, hacq]
  dsimp only
  simp only [acquire_resume]
  rw [if_pos hres]
  have hms : media_transport_find_owner
      { (transport_resume (media_owner_create t1 s a) ora).1 with
        owners := (updateOwner
          (transport_resume (media_owner_create t1 s a) ora).1.owners s
          (fun o => { o with request := some ⟨m, (transport_resume
            (media_owner_create t1 s a) ora).2⟩ })) } s
      = some { name := s, accesstype := a,
               request := some ⟨m, (transport_resume
                 (media_owner_create t1 s a) ora).2⟩, watch := true } :=
    hfind5
  rw [hms]
  dsimp only
  have hT5own : (updateOwner
      (transport_resume (media_owner_create t1 s a) ora).1.owners s
      (fun o => { o with request := some ⟨m, (transport_resume
        (media_owner_create t1 s a) ora).2⟩ }))
      = t.owners ++ [{ name := s, accesstype := a,
                       request := some ⟨m, (transport_resume
                         (media_owner_create t1 s a) ora).2⟩,
                       watch := true }] := by
    rw [hR1]
    exact updateOwner_append _ _ hf' (by simp)
  refine ⟨?_, ?_, ?_, ?_, ?_, ?_, ?_, rfl⟩
  · rw [media_owner_remove_owners]
    show removeOwner (updateOwner
      (transport_resume (media_owner_create t1 s a) ora).1.owners s _) s
      = t.owners
    rw [hT5own]
    exact removeOwner_append _ hf' (by simp)
  · rw [media_owner_remove_read]
    show (if g_strstr a ['r'] then false
      else (transport_resume (media_owner_create t1 s a) ora).1.read_lock)
      = t.read_lock
    rw [hrr]
    show (if g_strstr a ['r'] then false else t1.read_lock) = t.read_lock
    rw [hread]
    cases hra : g_strstr a ['r'] with
    | true =>
      rw [if_pos rfl, hri hra]
    | false =>
      rw [if_neg (by simp)]
      simp
  · rw [media_owner_remove_write]
    show (if g_strstr a ['w'] then false
      else (transport_resume (media_owner_create t1 s a) ora).1.write_lock)
      = t.write_lock
    rw [hrw]
    show (if g_strstr a ['w'] then false else t1.write_lock) = t.write_lock
    rw [hwrite]
    cases hwa : g_strstr a ['w'] with
    | true =>
      rw [if_pos rfl, hwi hwa]
    | false =>
      rw [if_neg (by simp)]
      simp
  · rw [(media_owner_remove_fd _ _).1]
    show (transport_resume (media_owner_create t1 s a) ora).1.fd = t.fd
    rw [hrfd]
    show t1.fd = t.fd
    exact hfd1
  · rw [(media_owner_remove_fd _ _).2.1]
    show (transport_resume (media_owner_create t1 s a) ora).1.imtu = t.imtu
    rw [hrim]
    show t1.imtu = t.imtu
    exact him1
  · rw [(media_owner_remove_fd _ _).2.2.1]
    show (transport_resume (media_owner_create t1 s a) ora).1.omtu = t.omtu
    rw [hrom]
    show t1.omtu = t.omtu
    exact hom1
  · have hcnt := (media_owner_remove_counts
      { (transport_resume (media_owner_create t1 s a) ora).1 with
        owners := (updateOwner
          (transport_resume (media_owner_create t1 s a) ora).1.owners s
          (fun o => { o with request := some ⟨m, (transport_resume
            (media_owner_create t1 s a) ora).2⟩ })) }
      { name := s, accesstype := a,
        request := some ⟨m, (transport_resume
          (media_owner_create t1 s a) ora).2⟩, watch := true }
      ⟨m, (transport_resume (media_owner_create t1 s a) ora).2⟩ rfl).1
    rw [hcnt]
    have hlg : (transport_resume (media_owner_create t1 s a) ora).1.log
        = t.log := by
      rw [hrlog]
      show t1.log = t.log
      exact hlog1
    rw [show ({ (transport_resume (media_owner_create t1 s a) ora).1 with
        owners := (updateOwner
          (transport_resume (media_owner_create t1 s a) ora).1.owners s
          (fun o => { o with request := some ⟨m, (transport_resume
            (media_owner_create t1 s a) ora).2⟩ })) }
        : MediaTransport).log
      = (transport_resume (media_owner_create t1 s a) ora).1.log from rfl]
    rw [hlg]

/-- Witness for C6 at a concrete input: on a fresh a2dp transport, client A
asks for "r" while the signalling-session acquisition fails; the owner is
gone again, the read lock is back to false, and exactly one error reply
went out for message 1. -/
theorem c6_sync_resume_failure_teardown_witness :
    (acquire (initTransport Profile.a2dp) ['A'] 1 ['r'] failOracle).1.owners
      = (initTransport Profile.a2dp).owners ∧
    (acquire (initTransport Profile.a2dp) ['A'] 1 ['r']
        failOracle).1.read_lock = (initTransport Profile.a2dp).read_lock ∧
    errCount (acquire (initTransport Profile.a2dp) ['A'] 1 ['r']
        failOracle).1.log 1
      = errCount (initTransport Profile.a2dp).log 1 + 1 := by
  have h := c6_sync_resume_failure_teardown (initTransport Profile.a2dp)
    ['A'] 1 ['r'] failOracle
    { initTransport Profile.a2dp with read_lock := true }
    (by decide) (by decide) (by decide)
  exact ⟨h.1, h.2.1, h.2.2.2.2.2.2.1⟩

end BluezTransport
